import Mathlib

/-!
Verification development for the variegated firmware updater host client
(src/main.rs). The Rust source is shallowly embedded: bytes are Nat values
below 256, byte buffers are List Nat, machine integers are Nat (u32 fields
never overflow on the paths modelled here), panics and fallible operations
are modelled with Except and Option.
-/

set_option maxRecDepth 4000

deriving instance DecidableEq for Except

namespace FirmwareUpdater

/-- Command model: enum SerialFlasherCommand from src/main.rs. -/
inductive SerialFlasherCommand where
  | hello
  | prepareForUpdate
  | writePage (relativeAddress : Nat) (page : List Nat) (checksum : Nat)
  | finishedWriting
  | compareChecksum (length : Nat) (digest : List Nat)
  | markUpdated
deriving DecidableEq

/-- Response model: enum SerialFlasherResponse from src/main.rs. -/
inductive SerialFlasherResponse where
  | ack
  | nack
deriving DecidableEq

/-- Error model: enum FlasherError from src/main.rs. -/
inductive FlasherError where
  | noResponse
  | couldntDeserialize
deriving DecidableEq

/-- The panic ("Non-256 length block") raised by the page-building closure in
main; the spec calls this condition InvalidBlockLength. -/
inductive BuildError where
  | invalidBlockLength
deriving DecidableEq

/-- The fields of uftwo::Block that main consumes: target_addr and data_len
are u32 fields, data is the 476-byte payload array of a UF2 block. -/
structure Block where
  target_addr : Nat
  data_len : Nat
  data : List Nat
deriving DecidableEq

/-! ## CRC-8 SMBUS

crc::Crc::<u8>::new(&crc::CRC_8_SMBUS): polynomial 0x07, initial value 0x00,
no input or output reflection, xorout 0x00. One bit step of the non-reflected
width-8 algorithm. -/

def crc8UpdateBit (c : Nat) : Nat :=
  if c &&& 0x80 ≠ 0 then ((c <<< 1) ^^^ 0x07) &&& 0xFF else (c <<< 1) &&& 0xFF

/-- Fold one input byte into the running CRC (xor in, then eight bit steps). -/
def crc8UpdateByte (c b : Nat) : Nat :=
  (List.range 8).foldl (fun acc _ => crc8UpdateBit acc) (c ^^^ b)

/-- CRC8.checksum(data): CRC-8 SMBUS over a byte buffer. -/
def crc8 (data : List Nat) : Nat := data.foldl crc8UpdateByte 0

/-! ## Frame codec: COBS byte stuffing (cobs crate) and postcard -/

/-- One pass of the standard COBS encoder body, as performed by the cobs
crate encoder that postcard uses for to_stdvec_cobs: emit groups of up to
254 non-zero bytes, each prefixed by its length plus one; a group cut short
by a zero byte consumes that zero. The fuel argument only bounds recursion
and is chosen large enough to never run out. -/
def cobsEncodeGo : Nat → List Nat → List Nat
  | _, [] => [1]
  | 0, _ => []
  | fuel + 1, data =>
    let g := (data.takeWhile (fun b => b ≠ 0)).take 254
    let rest := data.drop g.length
    if g.length = 254 then
      (255 :: g) ++ cobsEncodeGo fuel rest
    else
      match rest with
      | 0 :: rest2 => ((g.length + 1) :: g) ++ cobsEncodeGo fuel rest2
      | _ => (g.length + 1) :: g

/-- COBS encoding with the trailing 0x00 frame terminator, matching the
output of postcard::to_stdvec_cobs applied to already-serialized bytes. -/
def cobsEncode (data : List Nat) : List Nat :=
  cobsEncodeGo (data.length + 1) data ++ [0]

/-- cobs::decode_in_place with sentinel 0, as invoked by
postcard::from_bytes_cobs. Modelled from the cobs crate: read a code byte,
fail if it announces more bytes than remain (unless it equals 1), copy the
following code minus one bytes, and append a zero after every group whose
code is not 255 when more input remains. The accumulator is kept reversed;
fuel only bounds recursion. -/
def cobsDecodeGo : Nat → List Nat → List Nat → Option (List Nat)
  | _, [], acc => some acc.reverse
  | 0, _ :: _, _ => none
  | fuel + 1, code :: rest, acc =>
    if code ≠ 1 ∧ rest.length + 1 < code then none
    else
      let dat := rest.take (code - 1)
      let rest2 := rest.drop (code - 1)
      let acc2 := dat.reverse ++ acc
      let acc3 := if code ≠ 255 ∧ rest2 ≠ [] then 0 :: acc2 else acc2
      cobsDecodeGo fuel rest2 acc3

/-- decode_in_place over a byte buffer, returning the unstuffed content. -/
def decode_in_place (buf : List Nat) : Option (List Nat) :=
  cobsDecodeGo (buf.length + 1) buf []

/-- postcard varint decoding for u32 (try_take_varint_u32): up to five
bytes, seven payload bits each, the last permitted byte may carry at most
four bits. Returns the value and the unread remainder of the buffer. -/
def takeVarintGo : Nat → Nat → List Nat → Option (Nat × List Nat)
  | _, _, [] => none
  | i, out, b :: rest =>
    let out2 := out ||| ((b &&& 0x7F) <<< (7 * i))
    if b &&& 0x80 = 0 then
      if i = 4 ∧ b > 0x0F then none else some (out2, rest)
    else if i + 1 < 5 then
      takeVarintGo (i + 1) out2 rest
    else
      none

/-- postcard::from_bytes deserialization of SerialFlasherResponse: the enum
discriminant is a varint u32; variant 0 is Ack, variant 1 is Nack, any other
discriminant is a deserialization error. Bytes after the value are ignored,
as postcard::from_bytes documents. -/
def from_bytes_response (bytes : List Nat) : Option SerialFlasherResponse :=
  match takeVarintGo 0 0 bytes with
  | some (0, _) => some SerialFlasherResponse.ack
  | some (1, _) => some SerialFlasherResponse.nack
  | _ => none

/-- postcard::from_bytes_cobs::<SerialFlasherResponse>: COBS-unstuff the
buffer in place, then deserialize from the unstuffed content. -/
def from_bytes_cobs_response (buf : List Nat) : Option SerialFlasherResponse :=
  (decode_in_place buf).bind from_bytes_response

/-- postcard serialization of a SerialFlasherResponse value: the varint
discriminant of the unit variant, a single byte. -/
def serializeResponse : SerialFlasherResponse → List Nat
  | SerialFlasherResponse.ack => [0]
  | SerialFlasherResponse.nack => [1]

/-- The stuffed (COBS framed) encoding of a Response, i.e. the bytes a
device produces for a reply frame. -/
def encodeResponse (r : SerialFlasherResponse) : List Nat :=
  cobsEncode (serializeResponse r)

/-! ## Transport exchange: send_command -/

/-- Outcome of the single bounded port.read call in send_command: Ok with
the bytes actually received (the filled prefix of the 32-byte buffer), or
Err (for example a timeout). -/
inductive ReadResult where
  | ok (bytes : List Nat)
  | readErr
deriving DecidableEq

/-- The response-classification path of send_command (src/main.rs lines
140 to 155): a read error yields NoResponse; a successful read of len bytes
attempts from_bytes_cobs on exactly those bytes, a decode failure yields
CouldntDeserialize. The command argument is serialized and written before
the read and does not influence the classification. -/
def send_command (cmd : SerialFlasherCommand) (read : ReadResult) :
    Except FlasherError SerialFlasherResponse :=
  match read with
  | ReadResult.readErr => Except.error FlasherError.noResponse
  | ReadResult.ok bytes =>
    match from_bytes_cobs_response bytes with
    | some resp => Except.ok resp
    | none => Except.error FlasherError.couldntDeserialize

/-! ## Page builder -/

/-- The per-block closure of the write_commands pipeline in main (lines 79
to 98): blocks whose target_addr is below the offset yield None before any
length check; then a data_len other than 256 panics; otherwise the first 256
bytes of the block data become the page, with relative address and CRC-8. -/
def processBlock (offset : Nat) (b : Block) :
    Except BuildError (Option SerialFlasherCommand) :=
  if b.target_addr < offset then Except.ok none
  else
    let relative_address := b.target_addr - offset
    if b.data_len ≠ 256 then Except.error BuildError.invalidBlockLength
    else
      let data := b.data.take 256
      let checksum := crc8 data
      Except.ok (some (SerialFlasherCommand.writePage relative_address data checksum))

/-- The write_commands iterator as observed by its consumer: map the
per-block closure over the blocks and flatten away the skips. A panicking
block cuts off the sequence at the point where the lazy iterator would
raise it. -/
def buildSeq (offset : Nat) : List Block → List (Except BuildError SerialFlasherCommand)
  | [] => []
  | b :: bs =>
    match processBlock offset b with
    | Except.ok none => buildSeq offset bs
    | Except.ok (some c) => Except.ok c :: buildSeq offset bs
    | Except.error e => [Except.error e]

/-- slice::chunks_exact(n): successive chunks of exactly n elements, any
shorter remainder dropped. Accumulator-based so the recursion is structural. -/
def chunksExactGo (n : Nat) : List α → List α → List (List α)
  | [], _ => []
  | x :: xs, acc =>
    let acc2 := acc ++ [x]
    if acc2.length = n then acc2 :: chunksExactGo n xs [] else chunksExactGo n xs acc2

/-- buffer.chunks_exact(n) from the start of main. -/
def chunksExact (n : Nat) (l : List α) : List (List α) := chunksExactGo n l []

/-- The whole block pipeline of main: split the file buffer into 512-byte
chunks, parse each chunk with uftwo Block::from_bytes (the external image
reader, abstracted as the parse argument), and build the write command
sequence. -/
def writeCommandSeq (parse : List Nat → Block) (offset : Nat) (buffer : List Nat) :
    List (Except BuildError SerialFlasherCommand) :=
  buildSeq offset ((chunksExact 512 buffer).map parse)

/-! ## Port selection (src/main.rs lines 101 to 103) -/

/-- The serial device path handed to serialport::new. The operator value is
unwrapped (None panics with "Only serial port is allowed right now"),
converted from a path, and then shadowed by a hard-coded literal. -/
def openedPortPath (portArg : Option String) : Option String :=
  match portArg with
  | none => none
  | some p =>
    let port := p
    let port := "/dev/cu.usbserial-110"
    some port

/-! ## Update sequencer (src/main.rs lines 109 to 123)

The device and transport are abstracted as an oracle giving the outcome of
the i-th send_command exchange, counted in the order the exchanges happen
(0 is Hello, 1 is PrepareForUpdate, then one index per WritePage sent, then
FinishedWriting, then MarkUpdated). A run returns the list of commands
passed to send_command, in order, together with how the process ended. -/

/-- How a run of main terminates: a normal process exit, the explicit panic
on a Nack to a write, the panic of the page-building closure, or the unwrap
panic on a transport error. -/
inductive RunOutcome where
  | exitOk
  | nackWritePanic
  | blockPanic (e : BuildError)
  | unwrapPanic (e : FlasherError)
deriving DecidableEq

/-- The for-loop over write_commands: send each page command and require
Ack; an Err from send_command is unwrapped (panic) and a Nack triggers the
explicit panic. Returns the page commands actually sent and, when the loop
terminates early, the terminal outcome. -/
def writeLoop (oracle : Nat → Except FlasherError SerialFlasherResponse) :
    Nat → List (Except BuildError SerialFlasherCommand) →
    List SerialFlasherCommand × Option RunOutcome
  | _, [] => ([], none)
  | _, Except.error e :: _ => ([], some (RunOutcome.blockPanic e))
  | i, Except.ok c :: rest =>
    match oracle i with
    | Except.error fe => ([c], some (RunOutcome.unwrapPanic fe))
    | Except.ok SerialFlasherResponse.nack => ([c], some RunOutcome.nackWritePanic)
    | Except.ok SerialFlasherResponse.ack =>
      let t := writeLoop oracle (i + 1) rest
      (c :: t.1, t.2)

/-- The protocol phase of main: Hello (response unwrapped but otherwise
ignored), PrepareForUpdate, and only on Ack the write loop, FinishedWriting,
and on Ack MarkUpdated (whose response is unwrapped but not inspected). -/
def runMain (pages : List (Except BuildError SerialFlasherCommand))
    (oracle : Nat → Except FlasherError SerialFlasherResponse) :
    List SerialFlasherCommand × RunOutcome :=
  match oracle 0 with
  | Except.error e => ([SerialFlasherCommand.hello], RunOutcome.unwrapPanic e)
  | Except.ok _ =>
    match oracle 1 with
    | Except.error e =>
      ([SerialFlasherCommand.hello, SerialFlasherCommand.prepareForUpdate],
        RunOutcome.unwrapPanic e)
    | Except.ok SerialFlasherResponse.nack =>
      ([SerialFlasherCommand.hello, SerialFlasherCommand.prepareForUpdate],
        RunOutcome.exitOk)
    | Except.ok SerialFlasherResponse.ack =>
      match writeLoop oracle 2 pages with
      | (sent, some out) =>
        (SerialFlasherCommand.hello :: SerialFlasherCommand.prepareForUpdate :: sent, out)
      | (sent, none) =>
        match oracle (2 + sent.length) with
        | Except.error e =>
          (SerialFlasherCommand.hello :: SerialFlasherCommand.prepareForUpdate ::
            sent ++ [SerialFlasherCommand.finishedWriting], RunOutcome.unwrapPanic e)
        | Except.ok SerialFlasherResponse.nack =>
          (SerialFlasherCommand.hello :: SerialFlasherCommand.prepareForUpdate ::
            sent ++ [SerialFlasherCommand.finishedWriting], RunOutcome.exitOk)
        | Except.ok SerialFlasherResponse.ack =>
          match oracle (3 + sent.length) with
          | Except.error e =>
            (SerialFlasherCommand.hello :: SerialFlasherCommand.prepareForUpdate ::
              sent ++ [SerialFlasherCommand.finishedWriting, SerialFlasherCommand.markUpdated],
              RunOutcome.unwrapPanic e)
          | Except.ok _ =>
            (SerialFlasherCommand.hello :: SerialFlasherCommand.prepareForUpdate ::
              sent ++ [SerialFlasherCommand.finishedWriting, SerialFlasherCommand.markUpdated],
              RunOutcome.exitOk)

/-! ## Helper lemmas -/

/-- Sanity check: the embedded CRC-8 SMBUS has the standard check value 0xF4
on the ASCII digits one to nine. -/
theorem crc8_check_value :
    crc8 [0x31, 0x32, 0x33, 0x34, 0x35, 0x36, 0x37, 0x38, 0x39] = 0xF4 := by decide

/-- When the device Acks every write, the write loop sends every page, in
order, and terminates normally. -/
theorem writeLoop_allAck (oracle : Nat → Except FlasherError SerialFlasherResponse)
    (ps : List SerialFlasherCommand) :
    ∀ n : Nat, (∀ i, i < ps.length → oracle (n + i) = Except.ok SerialFlasherResponse.ack) →
    writeLoop oracle n (ps.map Except.ok) = (ps, none) := by
  induction ps with
  | nil => intro n _; rfl
  | cons c rest ih =>
    intro n h
    have h0 : oracle n = Except.ok SerialFlasherResponse.ack := by
      simpa using h 0 (by simp)
    have hrest := ih (n + 1) (fun i hi => by
      have hx := h (i + 1) (by simpa using Nat.succ_lt_succ hi)
      rwa [show n + (i + 1) = n + 1 + i from by omega] at hx)
    simp [writeLoop, h0, hrest]

/-- When the device Acks the first K writes and Nacks the next one, the
write loop sends exactly the first K + 1 pages and panics on the Nack. -/
theorem writeLoop_nackAt (oracle : Nat → Except FlasherError SerialFlasherResponse) :
    ∀ (K : Nat) (ps : List SerialFlasherCommand) (n : Nat),
    (∀ i, i < K → oracle (n + i) = Except.ok SerialFlasherResponse.ack) →
    oracle (n + K) = Except.ok SerialFlasherResponse.nack → K < ps.length →
    writeLoop oracle n (ps.map Except.ok) =
      (ps.take (K + 1), some RunOutcome.nackWritePanic) := by
  intro K
  induction K with
  | zero =>
    intro ps n _ hnack hlen
    match ps with
    | [] => simp at hlen
    | c :: rest =>
      have h0 : oracle n = Except.ok SerialFlasherResponse.nack := by simpa using hnack
      simp [writeLoop, h0]
  | succ K ih =>
    intro ps n hack hnack hlen
    match ps with
    | [] => simp at hlen
    | c :: rest =>
      have h0 : oracle n = Except.ok SerialFlasherResponse.ack := by
        simpa using hack 0 (Nat.succ_pos K)
      have hrest := ih rest (n + 1)
        (fun i hi => by
          have hx := hack (i + 1) (Nat.succ_lt_succ hi)
          rwa [show n + (i + 1) = n + 1 + i from by omega] at hx)
        (by rwa [show n + 1 + K = n + (K + 1) from by omega])
        (by simpa using Nat.lt_of_succ_lt_succ hlen)
      simp [writeLoop, h0, hrest]

/-- Every command the write loop sends comes from the page list. -/
theorem writeLoop_sent_mem (oracle : Nat → Except FlasherError SerialFlasherResponse) :
    ∀ (pages : List (Except BuildError SerialFlasherCommand)) (n : Nat)
      (c : SerialFlasherCommand),
    c ∈ (writeLoop oracle n pages).1 → Except.ok c ∈ pages := by
  intro pages
  induction pages with
  | nil => intro n c hc; simp [writeLoop] at hc
  | cons p rest ih =>
    intro n c hc
    match p with
    | Except.error e => simp [writeLoop] at hc
    | Except.ok d =>
      rcases ho : oracle n with fe | r
      · simp [writeLoop, ho] at hc
        simp [hc]
      · match r with
        | SerialFlasherResponse.nack =>
          simp [writeLoop, ho] at hc
          simp [hc]
        | SerialFlasherResponse.ack =>
          simp only [writeLoop, ho] at hc
          rcases List.mem_cons.mp hc with rfl | hc2
          · simp
          · exact List.mem_cons_of_mem _ (ih (n + 1) c hc2)

/-- The only way the page-building closure yields a command is as a
WritePage. -/
theorem processBlock_ok_some (offset : Nat) (b : Block) (c : SerialFlasherCommand)
    (h : processBlock offset b = Except.ok (some c)) :
    ∃ a p k, c = SerialFlasherCommand.writePage a p k := by
  simp only [processBlock] at h
  split_ifs at h
  · simp at h
  · simp only [Except.ok.injEq, Option.some.injEq] at h
    exact ⟨_, _, _, h.symm⟩

/-- Every command produced by the write_commands pipeline is a WritePage. -/
theorem buildSeq_ok_writePage (offset : Nat) :
    ∀ (blocks : List Block) (c : SerialFlasherCommand),
    Except.ok c ∈ buildSeq offset blocks →
    ∃ a p k, c = SerialFlasherCommand.writePage a p k := by
  intro blocks
  induction blocks with
  | nil => intro c hc; simp [buildSeq] at hc
  | cons b bs ih =>
    intro c hc
    rcases hp : processBlock offset b with e | oc
    · simp [buildSeq, hp] at hc
    · match oc with
      | none =>
        rw [buildSeq, hp] at hc
        exact ih c hc
      | some d =>
        rw [buildSeq, hp] at hc
        rcases List.mem_cons.mp hc with hd | hc2
        · have hcd : c = d := by simpa using hd
          subst hcd
          exact processBlock_ok_some offset b c hp
        · exact ih c hc2

/-- Every command in a run trace is one of the four fixed protocol commands
or comes from the page list. -/
theorem runMain_trace_mem (pages : List (Except BuildError SerialFlasherCommand))
    (oracle : Nat → Except FlasherError SerialFlasherResponse) (c : SerialFlasherCommand)
    (hc : c ∈ (runMain pages oracle).1) :
    c = SerialFlasherCommand.hello ∨ c = SerialFlasherCommand.prepareForUpdate ∨
    c = SerialFlasherCommand.finishedWriting ∨ c = SerialFlasherCommand.markUpdated ∨
    Except.ok c ∈ pages := by
  rcases h0 : oracle 0 with e0 | r0
  · simp [runMain, h0] at hc
    exact Or.inl hc
  · rcases h1 : oracle 1 with e1 | r1
    · simp [runMain, h0, h1] at hc
      tauto
    · match r1 with
      | SerialFlasherResponse.nack =>
        simp [runMain, h0, h1] at hc
        tauto
      | SerialFlasherResponse.ack =>
        rcases hw : writeLoop oracle 2 pages with ⟨sent, o⟩
        have hsent : ∀ x, x ∈ sent → Except.ok x ∈ pages := fun x hx =>
          writeLoop_sent_mem oracle pages 2 x (by rw [hw]; exact hx)
        match o with
        | some out =>
          simp [runMain, h0, h1, hw] at hc
          rcases hc with hc | hc | hc
          · tauto
          · tauto
          · exact Or.inr (Or.inr (Or.inr (Or.inr (hsent c hc))))
        | none =>
          rcases h2 : oracle (2 + sent.length) with e2 | r2
          · simp [runMain, h0, h1, hw, h2] at hc
            rcases hc with hc | hc | hc | hc
            · tauto
            · tauto
            · exact Or.inr (Or.inr (Or.inr (Or.inr (hsent c hc))))
            · tauto
          · match r2 with
            | SerialFlasherResponse.nack =>
              simp [runMain, h0, h1, hw, h2] at hc
              rcases hc with hc | hc | hc | hc
              · tauto
              · tauto
              · exact Or.inr (Or.inr (Or.inr (Or.inr (hsent c hc))))
              · tauto
            | SerialFlasherResponse.ack =>
              rcases h3 : oracle (3 + sent.length) with e3 | r3
              · simp [runMain, h0, h1, hw, h2, h3] at hc
                rcases hc with hc | hc | hc | hc | hc
                · tauto
                · tauto
                · exact Or.inr (Or.inr (Or.inr (Or.inr (hsent c hc))))
                · tauto
                · tauto
              · simp [runMain, h0, h1, hw, h2, h3] at hc
                rcases hc with hc | hc | hc | hc | hc
                · tauto
                · tauto
                · exact Or.inr (Or.inr (Or.inr (Or.inr (hsent c hc))))
                · tauto
                · tauto

/-- Chunking never emits anything when the input cannot fill one chunk. -/
theorem chunksExactGo_short (n : Nat) :
    ∀ (r acc : List α), acc.length + r.length < n → chunksExactGo n r acc = [] := by
  intro r
  induction r with
  | nil => intro acc _; rfl
  | cons x xs ih =>
    intro acc h
    simp only [List.length_cons] at h
    have hlen : (acc ++ [x]).length = acc.length + 1 := by simp
    have hne : (acc ++ [x]).length ≠ n := by omega
    rw [chunksExactGo, if_neg hne]
    exact ih (acc ++ [x]) (by omega)

/-- Appending fewer than n elements to input that chunking consumes exactly
does not change the chunks. -/
theorem chunksExactGo_append (n : Nat) (hn : 0 < n) :
    ∀ (l acc r : List α), acc.length < n → n ∣ (acc.length + l.length) →
    r.length < n → chunksExactGo n (l ++ r) acc = chunksExactGo n l acc := by
  intro l
  induction l with
  | nil =>
    intro acc r hacc hdvd hr
    simp only [List.length_nil, Nat.add_zero] at hdvd
    have hz : acc.length = 0 := Nat.eq_zero_of_dvd_of_lt hdvd hacc
    rw [List.nil_append]
    exact chunksExactGo_short n r acc (by omega)
  | cons x xs ih =>
    intro acc r hacc hdvd hr
    rw [List.cons_append]
    simp only [List.length_cons] at hdvd
    have hlen : (acc ++ [x]).length = acc.length + 1 := by simp
    by_cases hc : (acc ++ [x]).length = n
    · rw [chunksExactGo, if_pos hc, chunksExactGo, if_pos hc]
      have hdvd2 : n ∣ n + xs.length := by
        have e : acc.length + (xs.length + 1) = n + xs.length := by omega
        rwa [e] at hdvd
      have hxs : n ∣ xs.length := (Nat.dvd_add_right (dvd_refl n)).mp hdvd2
      rw [ih [] r (by simpa using hn) (by simpa using hxs) hr]
    · rw [chunksExactGo, if_neg hc, chunksExactGo, if_neg hc]
      have hlt2 : (acc ++ [x]).length < n := by omega
      have hdvd3 : n ∣ (acc ++ [x]).length + xs.length := by
        rw [hlen]
        have e : acc.length + 1 + xs.length = acc.length + (xs.length + 1) := by omega
        rw [e]
        exact hdvd
      exact ih (acc ++ [x]) r hlt2 hdvd3 hr

/-- chunks_exact ignores a trailing remainder shorter than the chunk size. -/
theorem chunksExact_append_right (n : Nat) (hn : 0 < n) (l r : List α)
    (hl : n ∣ l.length) (hr : r.length < n) :
    chunksExact n (l ++ r) = chunksExact n l :=
  chunksExactGo_append n hn l [] r (by simpa using hn) (by simpa using hl) hr

/-! ## Claim theorems -/

/-- Claim C1: for every input block with targetAddress at least offset and a
256-byte payload, the page builder yields exactly one WritePage command whose
relative address is targetAddress minus offset and whose checksum is the
CRC-8 SMBUS of the 256 payload bytes; for every block with targetAddress
below offset it yields no command at all. -/
theorem pageBuilder_offset_and_checksum (offset : Nat) (b : Block) :
    (offset ≤ b.target_addr → b.data_len = 256 →
      processBlock offset b = Except.ok (some (SerialFlasherCommand.writePage
        (b.target_addr - offset) (b.data.take 256) (crc8 (b.data.take 256)))))
    ∧ (b.target_addr < offset → processBlock offset b = Except.ok none) := by
  constructor
  · intro hge hlen
    have hnl : ¬ b.target_addr < offset := Nat.not_lt.mpr hge
    simp [processBlock, hnl, hlen]
  · intro hlt
    simp [processBlock, hlt]

/-- Witness for C1 at concrete blocks on both sides of the offset. -/
theorem pageBuilder_offset_and_checksum_witness :
    processBlock 5 (Block.mk 10 256 [1, 2, 3]) = Except.ok (some
      (SerialFlasherCommand.writePage (10 - 5) (([1, 2, 3] : List Nat).take 256)
        (crc8 (([1, 2, 3] : List Nat).take 256))))
    ∧ processBlock 9 (Block.mk 3 256 [1, 2, 3]) = Except.ok none :=
  ⟨(pageBuilder_offset_and_checksum 5 (Block.mk 10 256 [1, 2, 3])).1 (by decide) (by decide),
   (pageBuilder_offset_and_checksum 9 (Block.mk 3 256 [1, 2, 3])).2 (by decide)⟩

/-- Claim C2, counterexample: a successful read of zero bytes is classified
as CouldntDeserialize (decode is attempted on the empty buffer and fails),
not as NoResponse as the claim states. -/
theorem send_command_zero_read_countercase :
    send_command SerialFlasherCommand.hello (ReadResult.ok []) =
      Except.error FlasherError.couldntDeserialize
    ∧ send_command SerialFlasherCommand.hello (ReadResult.ok []) ≠
      Except.error FlasherError.noResponse := by decide

/-- Claim C2, amended: a read error (timeout) yields NoResponse; a
successful read of any number of bytes, including zero, attempts decode on
exactly the bytes received, and a decode failure yields CouldntDeserialize;
in particular a successful read of zero bytes yields CouldntDeserialize. -/
theorem send_command_read_classification (cmd : SerialFlasherCommand) (bytes : List Nat) :
    send_command cmd ReadResult.readErr = Except.error FlasherError.noResponse
    ∧ (∀ resp, from_bytes_cobs_response bytes = some resp →
        send_command cmd (ReadResult.ok bytes) = Except.ok resp)
    ∧ (from_bytes_cobs_response bytes = none →
        send_command cmd (ReadResult.ok bytes) = Except.error FlasherError.couldntDeserialize)
    ∧ send_command cmd (ReadResult.ok []) = Except.error FlasherError.couldntDeserialize := by
  refine ⟨rfl, ?_, ?_, rfl⟩
  · intro resp h
    simp [send_command, h]
  · intro h
    simp [send_command, h]

/-- Witness for the amended C2 on a concrete Nack reply frame. -/
theorem send_command_read_classification_witness :
    from_bytes_cobs_response [2, 1, 0] = some SerialFlasherResponse.nack
    ∧ send_command SerialFlasherCommand.hello (ReadResult.ok [2, 1, 0]) =
        Except.ok SerialFlasherResponse.nack :=
  ⟨by decide,
   (send_command_read_classification SerialFlasherCommand.hello [2, 1, 0]).2.1
     SerialFlasherResponse.nack (by decide)⟩

/-- Claim C3, counterexample: a block below the flash offset whose payload
length is not 256 bytes is silently skipped (no command, no error) because
the offset check runs before the length check. -/
theorem short_block_below_offset_countercase :
    (Block.mk 100 42 [7, 7]).data_len ≠ 256
    ∧ (Block.mk 100 42 [7, 7]).target_addr < 268451840
    ∧ processBlock 268451840 (Block.mk 100 42 [7, 7]) = Except.ok none := by decide

/-- Claim C3, amended: a block with targetAddress at least offset whose
payload length is not 256 bytes fails fatally (InvalidBlockLength); a block
with targetAddress below offset is skipped without any length check. -/
theorem pageBuilder_length_check_amended (offset : Nat) (b : Block) :
    (offset ≤ b.target_addr → b.data_len ≠ 256 →
      processBlock offset b = Except.error BuildError.invalidBlockLength)
    ∧ (b.target_addr < offset → processBlock offset b = Except.ok none) := by
  constructor
  · intro hge hlen
    have hnl : ¬ b.target_addr < offset := Nat.not_lt.mpr hge
    simp [processBlock, hnl, hlen]
  · intro hlt
    simp [processBlock, hlt]

/-- Witness for the amended C3 at concrete blocks. -/
theorem pageBuilder_length_check_amended_witness :
    processBlock 5 (Block.mk 10 42 [7, 7]) = Except.error BuildError.invalidBlockLength
    ∧ processBlock 500 (Block.mk 10 42 [7, 7]) = Except.ok none :=
  ⟨(pageBuilder_length_check_amended 5 (Block.mk 10 42 [7, 7])).1 (by decide) (by decide),
   (pageBuilder_length_check_amended 500 (Block.mk 10 42 [7, 7])).2 (by decide)⟩

/-- Claim C4: when the device Nacks PrepareForUpdate, the sequencer sends no
WritePage, no FinishedWriting and no MarkUpdated, and the run ends in the
declined state with a normal process exit (no error, no panic). -/
theorem sequencer_decline_short_circuit
    (pages : List (Except BuildError SerialFlasherCommand))
    (oracle : Nat → Except FlasherError SerialFlasherResponse)
    (r0 : SerialFlasherResponse)
    (h0 : oracle 0 = Except.ok r0)
    (h1 : oracle 1 = Except.ok SerialFlasherResponse.nack) :
    runMain pages oracle =
      ([SerialFlasherCommand.hello, SerialFlasherCommand.prepareForUpdate], RunOutcome.exitOk)
    ∧ (∀ a p k, SerialFlasherCommand.writePage a p k ∉ (runMain pages oracle).1)
    ∧ SerialFlasherCommand.finishedWriting ∉ (runMain pages oracle).1
    ∧ SerialFlasherCommand.markUpdated ∉ (runMain pages oracle).1 := by
  have hm : runMain pages oracle =
      ([SerialFlasherCommand.hello, SerialFlasherCommand.prepareForUpdate],
        RunOutcome.exitOk) := by
    simp [runMain, h0, h1]
  refine ⟨hm, ?_, ?_, ?_⟩
  · intro a p k
    rw [hm]
    simp
  · rw [hm]
    simp
  · rw [hm]
    simp

/-- Witness for C4 at a concrete oracle that declines the update. -/
theorem sequencer_decline_short_circuit_witness :
    runMain [Except.ok (SerialFlasherCommand.writePage 0 [] 0)]
      (fun i => if i = 1 then Except.ok SerialFlasherResponse.nack
        else Except.ok SerialFlasherResponse.ack) =
      ([SerialFlasherCommand.hello, SerialFlasherCommand.prepareForUpdate],
        RunOutcome.exitOk) :=
  (sequencer_decline_short_circuit [Except.ok (SerialFlasherCommand.writePage 0 [] 0)]
    (fun i => if i = 1 then Except.ok SerialFlasherResponse.nack
      else Except.ok SerialFlasherResponse.ack)
    SerialFlasherResponse.ack (by decide) (by decide)).1

/-- Claim C5: when the device Acks the first K writes and Nacks write K + 1,
the sequencer sends nothing after the rejected write (no further WritePage,
no FinishedWriting, no MarkUpdated) and the run ends in the WriteRejected
panic. -/
theorem sequencer_write_rejected (ps : List SerialFlasherCommand)
    (oracle : Nat → Except FlasherError SerialFlasherResponse) (K : Nat)
    (h0 : oracle 0 = Except.ok SerialFlasherResponse.ack)
    (h1 : oracle 1 = Except.ok SerialFlasherResponse.ack)
    (hack : ∀ i, i < K → oracle (2 + i) = Except.ok SerialFlasherResponse.ack)
    (hnack : oracle (2 + K) = Except.ok SerialFlasherResponse.nack)
    (hK : K < ps.length)
    (hps : ∀ c ∈ ps, ∃ a p k, c = SerialFlasherCommand.writePage a p k) :
    runMain (ps.map Except.ok) oracle =
      (SerialFlasherCommand.hello :: SerialFlasherCommand.prepareForUpdate ::
        ps.take (K + 1), RunOutcome.nackWritePanic)
    ∧ SerialFlasherCommand.finishedWriting ∉ (runMain (ps.map Except.ok) oracle).1
    ∧ SerialFlasherCommand.markUpdated ∉ (runMain (ps.map Except.ok) oracle).1 := by
  have hwl := writeLoop_nackAt oracle K ps 2 hack hnack hK
  have hm : runMain (ps.map Except.ok) oracle =
      (SerialFlasherCommand.hello :: SerialFlasherCommand.prepareForUpdate ::
        ps.take (K + 1), RunOutcome.nackWritePanic) := by
    simp [runMain, h0, h1, hwl]
  refine ⟨hm, ?_, ?_⟩
  · rw [hm]
    simp only [List.mem_cons, not_or]
    refine ⟨by simp, by simp, ?_⟩
    intro hmem
    rcases hps _ (List.take_subset _ _ hmem) with ⟨a, p, k, hk⟩
    exact absurd hk (by simp)
  · rw [hm]
    simp only [List.mem_cons, not_or]
    refine ⟨by simp, by simp, ?_⟩
    intro hmem
    rcases hps _ (List.take_subset _ _ hmem) with ⟨a, p, k, hk⟩
    exact absurd hk (by simp)

/-- Witness for C5: one page, rejected at the first write. -/
theorem sequencer_write_rejected_witness :
    runMain ([SerialFlasherCommand.writePage 0 [] 0].map Except.ok)
      (fun i => if i = 2 then Except.ok SerialFlasherResponse.nack
        else Except.ok SerialFlasherResponse.ack) =
      (SerialFlasherCommand.hello :: SerialFlasherCommand.prepareForUpdate ::
        [SerialFlasherCommand.writePage 0 [] 0].take (0 + 1), RunOutcome.nackWritePanic) :=
  (sequencer_write_rejected [SerialFlasherCommand.writePage 0 [] 0]
    (fun i => if i = 2 then Except.ok SerialFlasherResponse.nack
      else Except.ok SerialFlasherResponse.ack)
    0 (by decide) (by decide) (fun i hi => absurd hi (Nat.not_lt_zero i)) (by decide)
    (by decide) (fun c hc => ⟨0, [], 0, by simpa using hc⟩)).1

/-- Claim C6: for every operator-supplied serial-port path the opened device
path is the constant "/dev/cu.usbserial-110"; two runs differing only in the
configured --port value open the identical path. -/
theorem opened_port_ignores_config (p q : String) :
    openedPortPath (some p) = openedPortPath (some q)
    ∧ openedPortPath (some p) = some "/dev/cu.usbserial-110" :=
  ⟨rfl, rfl⟩

/-- Claim C7, counterexample: the COBS frame of the two-byte content
0x00 0x05 is not the stuffed encoding of Ack or of Nack, yet decode returns
Ack, because postcard from_bytes ignores bytes after the decoded value. -/
theorem frame_codec_trailing_bytes_countercase :
    from_bytes_cobs_response [1, 2, 5, 0] = some SerialFlasherResponse.ack
    ∧ [1, 2, 5, 0] ≠ encodeResponse SerialFlasherResponse.ack
    ∧ [1, 2, 5, 0] ≠ encodeResponse SerialFlasherResponse.nack := by decide

/-- Claim C7, amended: decoding the stuffed encoding of every Response value
recovers that value, and decode fails only on buffers that are not valid
encodings; but not every invalid buffer fails, since content after a valid
leading Response encoding is ignored. -/
theorem frame_codec_roundtrip (r : SerialFlasherResponse) :
    from_bytes_cobs_response (encodeResponse r) = some r
    ∧ (∀ buf : List Nat, from_bytes_cobs_response buf = none →
        buf ≠ encodeResponse SerialFlasherResponse.ack ∧
        buf ≠ encodeResponse SerialFlasherResponse.nack) := by
  constructor
  · cases r <;> decide
  · intro buf hbuf
    constructor
    · intro he
      rw [he] at hbuf
      revert hbuf
      decide
    · intro he
      rw [he] at hbuf
      revert hbuf
      decide

/-- Witness for the amended C7 on a concrete undecodable buffer. -/
theorem frame_codec_roundtrip_witness :
    from_bytes_cobs_response (encodeResponse SerialFlasherResponse.ack) =
      some SerialFlasherResponse.ack
    ∧ ([5] ≠ encodeResponse SerialFlasherResponse.ack ∧
        [5] ≠ encodeResponse SerialFlasherResponse.nack) :=
  ⟨(frame_codec_roundtrip SerialFlasherResponse.ack).1,
   (frame_codec_roundtrip SerialFlasherResponse.ack).2 [5] (by decide)⟩

/-- Claim C8: no run of the sequencer over the page-builder output ever
sends a CompareChecksum command, for any offset, input blocks and device
behavior, even though the command model defines the variant. -/
theorem sequencer_never_compare_checksum (offset : Nat) (blocks : List Block)
    (oracle : Nat → Except FlasherError SerialFlasherResponse)
    (len : Nat) (digest : List Nat) :
    SerialFlasherCommand.compareChecksum len digest ∉
      (runMain (buildSeq offset blocks) oracle).1 := by
  intro hmem
  rcases runMain_trace_mem _ _ _ hmem with h | h | h | h | h
  · exact absurd h (by simp)
  · exact absurd h (by simp)
  · exact absurd h (by simp)
  · exact absurd h (by simp)
  · rcases buildSeq_ok_writePage offset blocks _ h with ⟨a, p, k, hk⟩
    exact absurd hk (by simp)

/-- Claim C9: when the device Nacks FinishedWriting after acking everything
before it, the run ends with a normal process exit without sending
MarkUpdated and without any error or panic; the terminal outcome is the same
exitOk as a completed run, a silent fourth terminal state. -/
theorem sequencer_finished_nack_silent (ps : List SerialFlasherCommand)
    (oracle : Nat → Except FlasherError SerialFlasherResponse)
    (r0 : SerialFlasherResponse)
    (h0 : oracle 0 = Except.ok r0)
    (h1 : oracle 1 = Except.ok SerialFlasherResponse.ack)
    (hack : ∀ i, i < ps.length → oracle (2 + i) = Except.ok SerialFlasherResponse.ack)
    (hnack : oracle (2 + ps.length) = Except.ok SerialFlasherResponse.nack)
    (hmu : SerialFlasherCommand.markUpdated ∉ ps) :
    runMain (ps.map Except.ok) oracle =
      (SerialFlasherCommand.hello :: SerialFlasherCommand.prepareForUpdate ::
        ps ++ [SerialFlasherCommand.finishedWriting], RunOutcome.exitOk)
    ∧ SerialFlasherCommand.markUpdated ∉ (runMain (ps.map Except.ok) oracle).1 := by
  have hwl := writeLoop_allAck oracle ps 2 hack
  have hm : runMain (ps.map Except.ok) oracle =
      (SerialFlasherCommand.hello :: SerialFlasherCommand.prepareForUpdate ::
        ps ++ [SerialFlasherCommand.finishedWriting], RunOutcome.exitOk) := by
    simp [runMain, h0, h1, hwl, hnack]
  refine ⟨hm, ?_⟩
  rw [hm]
  simp [hmu]

/-- Witness for C9 with no pages and a Nack to FinishedWriting. -/
theorem sequencer_finished_nack_silent_witness :
    runMain (([] : List SerialFlasherCommand).map Except.ok)
      (fun i => if i = 2 then Except.ok SerialFlasherResponse.nack
        else Except.ok SerialFlasherResponse.ack) =
      (SerialFlasherCommand.hello :: SerialFlasherCommand.prepareForUpdate ::
        [] ++ [SerialFlasherCommand.finishedWriting], RunOutcome.exitOk) :=
  (sequencer_finished_nack_silent []
    (fun i => if i = 2 then Except.ok SerialFlasherResponse.nack
      else Except.ok SerialFlasherResponse.ack)
    SerialFlasherResponse.ack (by decide) (by decide)
    (fun i hi => absurd hi (by simp)) (by decide) (by simp)).1

/-- Claim C10: a trailing partial block (file length not a multiple of 512)
is silently ignored by the block splitter: the command sequence, including
any errors in it, is identical to the one for the file without the trailing
bytes, so the tail yields no WritePage command and no error. -/
theorem block_splitter_drops_partial_tail (parse : List Nat → Block) (offset : Nat)
    (full extra : List Nat) (hf : 512 ∣ full.length) (he : extra.length < 512) :
    writeCommandSeq parse offset (full ++ extra) = writeCommandSeq parse offset full := by
  unfold writeCommandSeq
  rw [chunksExact_append_right 512 (by norm_num) full extra hf he]

/-- Witness for C10: a 512-byte file with three trailing bytes. -/
theorem block_splitter_drops_partial_tail_witness :
    (512 ∣ (List.replicate 512 (0 : Nat)).length ∧ ([1, 2, 3] : List Nat).length < 512)
    ∧ writeCommandSeq (fun _ => Block.mk 0 0 []) 0
        (List.replicate 512 (0 : Nat) ++ [1, 2, 3]) =
      writeCommandSeq (fun _ => Block.mk 0 0 []) 0 (List.replicate 512 (0 : Nat)) :=
  ⟨⟨by simp, by decide⟩,
   block_splitter_drops_partial_tail (fun _ => Block.mk 0 0 []) 0
     (List.replicate 512 (0 : Nat)) [1, 2, 3] (by simp) (by decide)⟩

end FirmwareUpdater
